import Mathlib

/-!
Verification of the CodeAtlas code-intelligence core against its
natural-language specification.  The definitions below are shallow
embeddings of the Python source under `backend/app/`:

* `apply_changeset` / `rollback_changeset`  — `api/changesets.py`
* `calculate_risk` / `trace_impact`         — `services/impact_analyzer.py`
* `compute_diff`                            — `services/incremental_indexer.py`
* `scan`                                    — `indexer/scanner.py`
* `index_project`                           — `indexer/engine.py`
* `parse_python_regex`                      — `indexer/parser.py`

File contents are modelled as decoded text (`String`); the on-disk
working tree is a partial map from relative path to content.
-/

namespace CodeAtlas

/-! ### Changeset data model (`app/models/changeset.py`) -/

/-- Lifecycle states of a changeset (`ChangeSetStatus`). -/
inductive ChangeSetStatus where
  | proposed
  | applied
  | rolled_back
  | rejected
deriving DecidableEq, Repr

/-- One file's portion of a changeset (`Patch`); only the columns the
apply/rollback endpoints read. -/
structure Patch where
  file_path : String
  original_content : Option String
  new_content : String
  order : Nat
deriving DecidableEq, Repr

/-- A changeset with its patches (`ChangeSet`); only the columns the
apply/rollback endpoints read. -/
structure ChangeSet where
  status : ChangeSetStatus
  patches : List Patch
deriving DecidableEq, Repr

/-- The working tree: relative path ↦ current text content, `none` when the
file does not exist. -/
abbrev Fs := String → Option String

/-- Overwrite one path of the working tree (`Path.write_text`). -/
def fsWrite (fs : Fs) (path content : String) : Fs :=
  fun q => if q = path then some content else fs q

/-- Delete one path of the working tree (`Path.unlink`). -/
def fsDelete (fs : Fs) (path : String) : Fs :=
  fun q => if q = path then none else fs q

/-! ### Changeset applier (`api/changesets.py`) -/

/-- Outcome of the apply endpoint, as observed by the caller. -/
inductive ApplyOutcome where
  | invalidStatus
  | conflict (path : String)
  | applied (files_modified : List String)
deriving DecidableEq, Repr

/-- Post-state of the apply endpoint: the working tree, the changeset status
and the response/error. -/
structure ApplyResult where
  fs : Fs
  status : ChangeSetStatus
  outcome : ApplyOutcome

/-- One patch's pre-flight check in `apply_changeset` (changesets.py lines
335-349): a patch conflicts when its `original_content` is non-null and the
file either disagrees or no longer exists; patches with null
`original_content` are not checked. -/
def conflicts (fs : Fs) (p : Patch) : Bool :=
  match p.original_content with
  | some o =>
    match fs p.file_path with
    | some cur => decide (cur ≠ o)
    | none => true
  | none => false

/-- Pre-flight loop of `apply_changeset`: the first patch that raises a 409,
if any. -/
def find_conflict (fs : Fs) (patches : List Patch) : Option Patch :=
  patches.find? (conflicts fs)

/-- Write loop of `apply_changeset` (lines 352-362): each patch's
`new_content` is written in ascending `order`. -/
def write_patches (fs : Fs) (patches : List Patch) : Fs :=
  patches.foldl (fun acc p => fsWrite acc p.file_path p.new_content) fs

/-- The apply endpoint `apply_changeset` (changesets.py lines 309-384).
Python's `sorted(..., key=lambda x: x.order)` is a stable ascending sort,
modelled by `List.insertionSort` (also stable).  An exception raised before
any write leaves both the tree and the stored status unchanged, which the
returned record states explicitly. -/
def apply_changeset (fs : Fs) (cs : ChangeSet) : ApplyResult :=
  if cs.status ≠ ChangeSetStatus.proposed then ⟨fs, cs.status, .invalidStatus⟩
  else
    match find_conflict fs cs.patches with
    | some p => ⟨fs, cs.status, .conflict p.file_path⟩
    | none =>
      let sorted := cs.patches.insertionSort fun a b => a.order ≤ b.order
      ⟨write_patches fs sorted, .applied, .applied (sorted.map (·.file_path))⟩

/-- Outcome of the rollback endpoint, as observed by the caller. -/
inductive RollbackOutcome where
  | invalidStatus
  | rolled_back (files_restored : List String)
deriving DecidableEq, Repr

/-- Post-state of the rollback endpoint. -/
structure RollbackResult where
  fs : Fs
  status : ChangeSetStatus
  outcome : RollbackOutcome

/-- One iteration of the restore loop of `rollback_changeset`
(changesets.py lines 414-424): non-null `original_content` is rewritten;
otherwise the file is deleted when present, else skipped.  The second
component accumulates `files_restored`. -/
def rollback_step (st : Fs × List String) (p : Patch) : Fs × List String :=
  match p.original_content with
  | some o => (fsWrite st.1 p.file_path o, st.2 ++ [p.file_path])
  | none =>
    if (st.1 p.file_path).isSome then
      (fsDelete st.1 p.file_path, st.2 ++ [p.file_path])
    else st

/-- The rollback endpoint `rollback_changeset` (changesets.py lines
387-436): refuses unless `APPLIED`, then restores patches in descending
`order` (`sorted(..., reverse=True)`, a stable descending sort). -/
def rollback_changeset (fs : Fs) (cs : ChangeSet) : RollbackResult :=
  if cs.status ≠ ChangeSetStatus.applied then ⟨fs, cs.status, .invalidStatus⟩
  else
    let sortedDesc := cs.patches.insertionSort fun a b => b.order ≤ a.order
    let st := sortedDesc.foldl rollback_step (fs, [])
    ⟨st.1, .rolled_back, .rolled_back st.2⟩

/-! ### Risk classifier (`services/impact_analyzer.py`, `_calculate_risk`) -/

/-- Risk classifier `ImpactAnalyzer._calculate_risk` (impact_analyzer.py
lines 230-252).  The counts are list lengths, hence naturals. -/
def calculate_risk (changed_files changed_symbols impacted_files impacted_symbols : Nat) :
    String × String :=
  let total_affected := impacted_files + impacted_symbols
  if total_affected = 0 then
    ("low", "No external dependencies found. Changes are isolated.")
  else if impacted_files ≤ 2 ∧ impacted_symbols ≤ 5 then
    ("low", s!"Limited impact: {impacted_files} file(s) and {impacted_symbols} symbol(s) reference the changes.")
  else if impacted_files ≤ 5 ∧ impacted_symbols ≤ 15 then
    ("medium", s!"Moderate impact: {impacted_files} file(s) and {impacted_symbols} symbol(s) may be affected. Review recommended.")
  else if impacted_files ≤ 10 ∧ impacted_symbols ≤ 30 then
    ("high", s!"Significant impact: {impacted_files} file(s) and {impacted_symbols} symbol(s) depend on these changes. Thorough testing required.")
  else
    ("critical", s!"Critical impact: {impacted_files} file(s) and {impacted_symbols} symbol(s) are affected. This is a core component.")

/-! ### Lemmas about the changeset applier -/

lemma conflicts_iff (fs : Fs) (p : Patch) :
    conflicts fs p = true ↔ ∃ o, p.original_content = some o ∧ fs p.file_path ≠ some o := by
  unfold conflicts
  cases ho : p.original_content with
  | none => simp
  | some o =>
    cases hf : fs p.file_path with
    | none => simp [hf]
    | some cur => simp [hf]

lemma conflicts_eq_false (fs : Fs) (p : Patch)
    (h : fs p.file_path = p.original_content) : conflicts fs p = false := by
  unfold conflicts
  cases ho : p.original_content with
  | none => rfl
  | some o => rw [ho] at h; simp [h]

lemma fsWrite_ne (fs : Fs) (path content q : String) (h : q ≠ path) :
    fsWrite fs path content q = fs q := by
  simp [fsWrite, h]

lemma fsWrite_self (fs : Fs) (path content : String) :
    fsWrite fs path content path = some content := by
  simp [fsWrite]

lemma fsDelete_ne (fs : Fs) (path q : String) (h : q ≠ path) :
    fsDelete fs path q = fs q := by
  simp [fsDelete, h]

lemma write_patches_of_not_mem (q : String) :
    ∀ (l : List Patch) (fs : Fs), (∀ p ∈ l, p.file_path ≠ q) →
      write_patches fs l q = fs q := by
  intro l
  induction l with
  | nil => intro fs _; rfl
  | cons p rest ih =>
    intro fs h
    have hp : p.file_path ≠ q := h p (List.mem_cons_self ..)
    have := ih (fsWrite fs p.file_path p.new_content)
      (fun x hx => h x (List.mem_cons_of_mem _ hx))
    simpa [write_patches, fsWrite_ne fs p.file_path p.new_content q (Ne.symm hp)]
      using this

lemma rollback_step_at_path (fs0 : Fs) (q : String) (st : Fs × List String) (p : Patch)
    (hq : p.file_path = q) (h : fs0 q = p.original_content) :
    (rollback_step st p).1 q = fs0 q := by
  subst hq
  unfold rollback_step
  cases ho : p.original_content with
  | some o =>
    rw [ho] at h
    simp [fsWrite_self, h]
  | none =>
    rw [ho] at h
    rw [h]
    by_cases hs : (st.1 p.file_path).isSome
    · simp [hs, fsDelete]
    · rw [if_neg hs]
      cases hx : st.1 p.file_path with
      | none => rfl
      | some v => rw [hx] at hs; simp at hs

lemma rollback_step_other (st : Fs × List String) (p : Patch) (q : String)
    (hq : p.file_path ≠ q) : (rollback_step st p).1 q = st.1 q := by
  unfold rollback_step
  cases p.original_content with
  | some o => simp [fsWrite_ne _ _ _ _ (Ne.symm hq)]
  | none =>
    by_cases hs : (st.1 p.file_path).isSome
    · simp [hs, fsDelete_ne _ _ _ (Ne.symm hq)]
    · simp [hs]

lemma rollback_fold_at (fs0 : Fs) (q : String) :
    ∀ (l : List Patch) (st : Fs × List String),
      (∀ p ∈ l, p.file_path = q → fs0 q = p.original_content) →
      (l.foldl rollback_step st).1 q =
        if l.any (fun p => p.file_path == q) then fs0 q else st.1 q := by
  intro l
  induction l with
  | nil => intro st _; simp
  | cons p rest ih =>
    intro st h
    have hrest := ih (rollback_step st p)
      (fun x hx => h x (List.mem_cons_of_mem _ hx))
    by_cases hq : p.file_path = q
    · by_cases hany : rest.any (fun x => x.file_path == q)
      · simp only [List.foldl_cons, List.any_cons]
        rw [hrest, if_pos hany, if_pos]
        simp [hany]
      · simp only [List.foldl_cons, List.any_cons]
        rw [hrest, if_neg hany,
          rollback_step_at_path fs0 q st p hq (h p (List.mem_cons_self ..) hq), if_pos]
        simp [hq]
    · simp only [List.foldl_cons, List.any_cons]
      rw [hrest, rollback_step_other st p q hq]
      have hb : (p.file_path == q) = false := by simp [hq]
      simp [hb]

/-! ### Claim theorems: changeset applier -/

/-- C1 (amended): with the changeset in state `PROPOSED`, `Apply` returns
`Conflict` exactly when some patch with non-null `original_content` finds the
file missing or its content different byte-for-byte; on conflict nothing is
written and the status stays `PROPOSED`.  Patches whose `original_content` is
null (file-creation patches) are exempt from the pre-flight check. -/
theorem apply_conflict_iff (fs : Fs) (cs : ChangeSet)
    (hst : cs.status = ChangeSetStatus.proposed) :
    ((∃ q, (apply_changeset fs cs).outcome = ApplyOutcome.conflict q) ↔
      ∃ p ∈ cs.patches, ∃ o, p.original_content = some o ∧ fs p.file_path ≠ some o)
    ∧ (∀ q, (apply_changeset fs cs).outcome = ApplyOutcome.conflict q →
        (apply_changeset fs cs).fs = fs ∧
        (apply_changeset fs cs).status = ChangeSetStatus.proposed) := by
  unfold apply_changeset
  rw [hst]
  simp only [ne_eq, not_true_eq_false, if_false, ite_false]
  cases hc : find_conflict fs cs.patches with
  | some p =>
    unfold find_conflict at hc
    have hmem := List.mem_of_find?_eq_some hc
    have hpred := (conflicts_iff fs p).mp (List.find?_some hc)
    exact ⟨⟨fun _ => ⟨p, hmem, hpred⟩, fun _ => ⟨p.file_path, rfl⟩⟩,
      fun q _ => ⟨rfl, hst ▸ rfl⟩⟩
  | none =>
    unfold find_conflict at hc
    rw [List.find?_eq_none] at hc
    constructor
    · constructor
      · rintro ⟨q, hq⟩
        simp at hq
      · rintro ⟨p, hp, o, ho, hne⟩
        exact absurd ((conflicts_iff fs p).mpr ⟨o, ho, hne⟩) (hc p hp)
    · intro q hq
      simp at hq

/-- C1 witness: a single-patch changeset whose file has disappeared is
rejected with `Conflict`, the tree untouched, status still `PROPOSED`. -/
theorem apply_conflict_iff_witness :
    ((∃ q, (apply_changeset (fun _ => none)
        ⟨ChangeSetStatus.proposed, [⟨"a", some "A", "B", 0⟩]⟩).outcome
          = ApplyOutcome.conflict q) ↔
      ∃ p ∈ [(⟨"a", some "A", "B", 0⟩ : Patch)], ∃ o, p.original_content = some o ∧
        (fun _ => (none : Option String)) p.file_path ≠ some o)
    ∧ (∀ q, (apply_changeset (fun _ => none)
        ⟨ChangeSetStatus.proposed, [⟨"a", some "A", "B", 0⟩]⟩).outcome
          = ApplyOutcome.conflict q →
        (apply_changeset (fun _ => none)
          ⟨ChangeSetStatus.proposed, [⟨"a", some "A", "B", 0⟩]⟩).fs = (fun _ => none) ∧
        (apply_changeset (fun _ => none)
          ⟨ChangeSetStatus.proposed, [⟨"a", some "A", "B", 0⟩]⟩).status
            = ChangeSetStatus.proposed) :=
  apply_conflict_iff (fun _ => none) ⟨ChangeSetStatus.proposed, [⟨"a", some "A", "B", 0⟩]⟩ rfl

/-- C1 counterexample: a `PROPOSED` changeset whose only patch has null
`original_content` (a file-creation patch) while the file meanwhile exists
on disk with content "X".  The claim demands a `Conflict` with no writes;
the endpoint instead applies and overwrites the file. -/
theorem apply_skips_creation_patch_check :
    (apply_changeset (fun q => if q = "src/x.py" then some "X" else none)
        ⟨ChangeSetStatus.proposed, [⟨"src/x.py", none, "B", 0⟩]⟩).outcome
      = ApplyOutcome.applied ["src/x.py"]
    ∧ (apply_changeset (fun q => if q = "src/x.py" then some "X" else none)
        ⟨ChangeSetStatus.proposed, [⟨"src/x.py", none, "B", 0⟩]⟩).fs "src/x.py"
      = some "B" := by
  exact ⟨rfl, rfl⟩

/-- C2 (amended): on a `PROPOSED` changeset all of whose patches still see
the content captured at creation (for non-null `original_content`, the file
holds exactly it; for null `original_content`, the file is still absent),
`Apply` succeeds and moves the changeset to `APPLIED`, and a subsequent
`Rollback` — which processes patches in descending `order` and refuses on
any non-`APPLIED` changeset — restores every path of the working tree to
its exact pre-apply content and existence. -/
theorem apply_rollback_roundtrip (fs : Fs) (cs : ChangeSet)
    (hst : cs.status = ChangeSetStatus.proposed)
    (horig : ∀ p ∈ cs.patches, fs p.file_path = p.original_content) :
    (∃ mods, (apply_changeset fs cs).outcome = ApplyOutcome.applied mods)
    ∧ (apply_changeset fs cs).status = ChangeSetStatus.applied
    ∧ (∀ q, (rollback_changeset (apply_changeset fs cs).fs
        ⟨ChangeSetStatus.applied, cs.patches⟩).fs q = fs q)
    ∧ (∀ (fs2 : Fs) (cs2 : ChangeSet), cs2.status ≠ ChangeSetStatus.applied →
        (rollback_changeset fs2 cs2).outcome = RollbackOutcome.invalidStatus) := by
  have hnc : find_conflict fs cs.patches = none := by
    unfold find_conflict
    rw [List.find?_eq_none]
    intro p hp
    rw [conflicts_eq_false fs p (horig p hp)]
    simp
  have happly : apply_changeset fs cs =
      ⟨write_patches fs (cs.patches.insertionSort fun a b => a.order ≤ b.order),
        ChangeSetStatus.applied,
        .applied ((cs.patches.insertionSort fun a b => a.order ≤ b.order).map
          (·.file_path))⟩ := by
    unfold apply_changeset
    rw [hst]
    simp only [ne_eq, not_true_eq_false, if_false, ite_false]
    rw [hnc]
  have hroll : ∀ q, (rollback_changeset
      (write_patches fs (cs.patches.insertionSort fun a b => a.order ≤ b.order))
      ⟨ChangeSetStatus.applied, cs.patches⟩).fs q = fs q := by
    intro q
    unfold rollback_changeset
    simp only [ne_eq, not_true_eq_false, if_false, ite_false]
    rw [rollback_fold_at fs q]
    · by_cases hany :
        (cs.patches.insertionSort fun a b => b.order ≤ a.order).any
          (fun p => p.file_path == q)
      · rw [if_pos hany]
      · rw [if_neg hany]
        have hnone : ∀ p ∈ cs.patches, p.file_path ≠ q := by
          intro p hp
          have hp2 : p ∈ cs.patches.insertionSort fun a b => b.order ≤ a.order :=
            (List.perm_insertionSort _ _).mem_iff.mpr hp
          intro hpq
          exact hany (List.any_eq_true.mpr ⟨p, hp2, by simp [hpq]⟩)
        exact write_patches_of_not_mem q _ fs
          (fun p hp => hnone p ((List.perm_insertionSort _ _).mem_iff.mp hp))
    · intro p hp hpq
      have := horig p ((List.perm_insertionSort _ _).mem_iff.mp hp)
      rw [hpq] at this
      exact this
  refine ⟨⟨_, by rw [happly]⟩, by rw [happly], ?_, ?_⟩
  · intro q
    rw [happly]
    exact hroll q
  · intro fs2 cs2 h2
    unfold rollback_changeset
    rw [if_pos h2]

/-- Concrete working tree for the C2 witness: `a.txt` holds "A", nothing
else exists. -/
def c2fs : Fs := fun q => if q = "a.txt" then some "A" else none

/-- Concrete changeset for the C2 witness: one patch rewriting `a.txt` and
one creating `new.txt`. -/
def c2cs : ChangeSet :=
  ⟨ChangeSetStatus.proposed,
    [⟨"a.txt", some "A", "B", 0⟩, ⟨"new.txt", none, "N", 1⟩]⟩

/-- C2 witness: apply-then-rollback on a concrete two-patch changeset
restores both affected paths. -/
theorem apply_rollback_roundtrip_witness :
    (rollback_changeset (apply_changeset c2fs c2cs).fs
      ⟨ChangeSetStatus.applied, c2cs.patches⟩).fs "a.txt" = c2fs "a.txt"
    ∧ (rollback_changeset (apply_changeset c2fs c2cs).fs
      ⟨ChangeSetStatus.applied, c2cs.patches⟩).fs "new.txt" = c2fs "new.txt" :=
  ⟨(apply_rollback_roundtrip c2fs c2cs rfl (by decide)).2.2.1 "a.txt",
   (apply_rollback_roundtrip c2fs c2cs rfl (by decide)).2.2.1 "new.txt"⟩

/-- C2 counterexample: a file-creation patch (null `original_content`) whose
path meanwhile exists on disk with content "X".  `Apply` succeeds (the
pre-flight check skips creation patches), and `Rollback` then deletes the
path, so the pre-apply content "X" is not restored. -/
theorem rollback_deletes_preexisting_file :
    (apply_changeset (fun q => if q = "p" then some "X" else none)
        ⟨ChangeSetStatus.proposed, [⟨"p", none, "B", 0⟩]⟩).outcome
      = ApplyOutcome.applied ["p"]
    ∧ (rollback_changeset
        (apply_changeset (fun q => if q = "p" then some "X" else none)
          ⟨ChangeSetStatus.proposed, [⟨"p", none, "B", 0⟩]⟩).fs
        ⟨ChangeSetStatus.applied, [⟨"p", none, "B", 0⟩]⟩).outcome
      = RollbackOutcome.rolled_back ["p"]
    ∧ (rollback_changeset
        (apply_changeset (fun q => if q = "p" then some "X" else none)
          ⟨ChangeSetStatus.proposed, [⟨"p", none, "B", 0⟩]⟩).fs
        ⟨ChangeSetStatus.applied, [⟨"p", none, "B", 0⟩]⟩).fs "p" = none
    ∧ (fun q => if q = "p" then some "X" else none : Fs) "p" = some "X" := by
  exact ⟨rfl, rfl, rfl, rfl⟩

/-! ### Claim theorem: risk classifier -/

lemma calculate_risk_fst (cf cs ifs isy : Nat) :
    (calculate_risk cf cs ifs isy).1 =
      if ifs + isy = 0 then "low"
      else if ifs ≤ 2 ∧ isy ≤ 5 then "low"
      else if ifs ≤ 5 ∧ isy ≤ 15 then "medium"
      else if ifs ≤ 10 ∧ isy ≤ 30 then "high"
      else "critical" := by
  unfold calculate_risk
  by_cases h1 : ifs + isy = 0
  · simp [h1]
  · by_cases h2 : ifs ≤ 2 ∧ isy ≤ 5
    · simp [h1, h2]
    · by_cases h3 : ifs ≤ 5 ∧ isy ≤ 15
      · simp [h1, h2, h3]
      · by_cases h4 : ifs ≤ 10 ∧ isy ≤ 30
        · simp [h1, h2, h3, h4]
        · simp [h1, h2, h3, h4]

/-- C4: the risk classifier returns exactly one of low, medium, high,
critical, via top-down first-match over the bucket predicates of the spec
table. -/
theorem calculate_risk_buckets (cf cs ifs isy : Nat) :
    ((calculate_risk cf cs ifs isy).1 = "low" ∨
      (calculate_risk cf cs ifs isy).1 = "medium" ∨
      (calculate_risk cf cs ifs isy).1 = "high" ∨
      (calculate_risk cf cs ifs isy).1 = "critical")
    ∧ ((calculate_risk cf cs ifs isy).1 = "low" ↔
        ((ifs = 0 ∧ isy = 0) ∨ (ifs ≤ 2 ∧ isy ≤ 5)))
    ∧ ((calculate_risk cf cs ifs isy).1 = "medium" ↔
        (¬((ifs = 0 ∧ isy = 0) ∨ (ifs ≤ 2 ∧ isy ≤ 5)) ∧ ifs ≤ 5 ∧ isy ≤ 15))
    ∧ ((calculate_risk cf cs ifs isy).1 = "high" ↔
        (¬((ifs = 0 ∧ isy = 0) ∨ (ifs ≤ 2 ∧ isy ≤ 5)) ∧ ¬(ifs ≤ 5 ∧ isy ≤ 15) ∧
          ifs ≤ 10 ∧ isy ≤ 30))
    ∧ ((calculate_risk cf cs ifs isy).1 = "critical" ↔
        (¬((ifs = 0 ∧ isy = 0) ∨ (ifs ≤ 2 ∧ isy ≤ 5)) ∧ ¬(ifs ≤ 5 ∧ isy ≤ 15) ∧
          ¬(ifs ≤ 10 ∧ isy ≤ 30))) := by
  have e := calculate_risk_fst cf cs ifs isy
  by_cases h1 : ifs + isy = 0 <;> by_cases h2 : ifs ≤ 2 ∧ isy ≤ 5 <;>
    by_cases h3 : ifs ≤ 5 ∧ isy ≤ 15 <;> by_cases h4 : ifs ≤ 10 ∧ isy ≤ 30 <;>
    rw [e] <;> simp [h1, h2, h3, h4] <;> omega

/-! ### Impact analyzer (`services/impact_analyzer.py`, `_trace_impact`) -/

/-- One row of the `symbols` table, restricted to the columns
`_trace_impact` reads; `file_path` is the owning file's path through the
`file` relationship (`none` when the file is missing). -/
structure SymbolRow where
  id : String
  name : String
  kind : String
  file_path : Option String
  start_line : Nat
  end_line : Nat
deriving DecidableEq, Repr

/-- One row of the `references` table, restricted to the columns
`_trace_impact` reads. -/
structure ReferenceRow where
  from_symbol_id : String
  to_symbol_id : Option String
deriving DecidableEq, Repr

/-- One row of the `files` table, restricted to the columns the impacted-file
assembly reads. -/
structure FileRow where
  path : String
  language : Option String
deriving DecidableEq, Repr

/-- The analyzer's `ImpactedSymbol` dataclass. -/
structure ImpactedSymbol where
  id : String
  name : String
  kind : String
  file_path : String
  start_line : Nat
  end_line : Nat
  impact_type : String
  distance : Nat
deriving DecidableEq, Repr

/-- The analyzer's `ImpactedFile` dataclass. -/
structure ImpactedFile where
  path : String
  language : Option String
  symbols_affected : List ImpactedSymbol
  is_directly_changed : Bool
deriving DecidableEq, Repr

/-- Mutable state of the BFS loop in `_trace_impact`: the visited set, the
next frontier, the accumulated impacted symbols, and the `file_symbols`
dict (association list in first-insertion order, as Python dicts iterate). -/
structure TraceState where
  visited : List String
  next_ids : List String
  impacted : List ImpactedSymbol
  file_symbols : List (String × List ImpactedSymbol)
deriving Repr

/-- The `file_symbols.setdefault`-style update of `_trace_impact` (lines
200-203): append `imp` to the entry for `path`, creating it if absent. -/
def append_file_symbol (fsy : List (String × List ImpactedSymbol)) (path : String)
    (imp : ImpactedSymbol) : List (String × List ImpactedSymbol) :=
  if fsy.any (fun e => e.1 == path) then
    fsy.map (fun e => if e.1 == path then (e.1, e.2 ++ [imp]) else e)
  else fsy ++ [(path, [imp])]

/-- Body of the per-reference loop in `_trace_impact` (impact_analyzer.py
lines 180-203): skip when the joined `from_symbol` row is missing or already
visited, else record the symbol at the current distance. -/
def trace_step (symbols : List SymbolRow) (distance : Nat) (st : TraceState)
    (r : ReferenceRow) : TraceState :=
  match symbols.find? (fun s => s.id == r.from_symbol_id) with
  | none => st
  | some sym =>
    if st.visited.contains r.from_symbol_id then st
    else
      let fp := sym.file_path.getD ""
      let imp : ImpactedSymbol :=
        ⟨sym.id, sym.name, sym.kind, fp, sym.start_line, sym.end_line,
          if distance = 1 then "direct" else "transitive", distance⟩
      ⟨st.visited ++ [r.from_symbol_id], st.next_ids ++ [r.from_symbol_id],
        st.impacted ++ [imp],
        if fp = "" then st.file_symbols else append_file_symbol st.file_symbols fp imp⟩

/-- The `while current_ids and distance <= max_depth` loop of
`_trace_impact` (lines 167-206), reindexed on `gas = max_depth + 1 -
distance` so that the recursion is structural: `gas = 0` is exactly
`distance > max_depth`, and the frontier pattern distinguishes the empty
`current_ids` exit.  Each layer filters the references whose `to_symbol_id`
is in the frontier (the batched `IN` query; SQL `IN` is false for NULL). -/
def trace_loop (symbols : List SymbolRow) (refs : List ReferenceRow) :
    Nat → List String → Nat → List String → List ImpactedSymbol →
    List (String × List ImpactedSymbol) →
    List ImpactedSymbol × List (String × List ImpactedSymbol)
  | 0, _, _, _, impacted, fsy => (impacted, fsy)
  | _ + 1, [], _, _, impacted, fsy => (impacted, fsy)
  | gas + 1, c :: cs, distance, visited, impacted, fsy =>
    let current := c :: cs
    let layer := refs.filter fun r =>
      match r.to_symbol_id with
      | some t => current.contains t
      | none => false
    let st := layer.foldl (trace_step symbols distance) ⟨visited, [], impacted, fsy⟩
    trace_loop symbols refs gas st.next_ids (distance + 1) st.visited st.impacted
      st.file_symbols

/-- Assembly of the `impacted_files` list after the BFS (lines 208-226):
one `ImpactedFile` per dict entry, with the file row looked up by path. -/
def build_impacted_files (files : List FileRow)
    (fsy : List (String × List ImpactedSymbol)) : List ImpactedFile :=
  fsy.map fun e =>
    ⟨e.1,
      match files.find? (fun f => f.path == e.1) with
      | some f => f.language
      | none => none,
      e.2, false⟩

/-- `ImpactAnalyzer._trace_impact` (impact_analyzer.py lines 154-228): the
visited set starts as the changed `symbol_ids`, the frontier as
`symbol_ids`, distance 1, `max_depth` defaulting to 3. -/
def trace_impact (files : List FileRow) (symbols : List SymbolRow)
    (refs : List ReferenceRow) (symbol_ids : List String) (max_depth : Nat := 3) :
    List ImpactedSymbol × List ImpactedFile :=
  let r := trace_loop symbols refs max_depth symbol_ids 1 symbol_ids [] []
  (r.1, build_impacted_files files r.2)

/-! ### Lemmas about the impact BFS -/

/-- The bound-and-labelling property C3 asserts of every returned symbol:
distance within the cap and the label fully determined by the distance —
"direct" at distance 1, "transitive" at every greater distance. -/
def impactProp (maxDepth : Nat) (s : ImpactedSymbol) : Prop :=
  1 ≤ s.distance ∧ s.distance ≤ maxDepth ∧
    s.impact_type = (if s.distance = 1 then "direct" else "transitive")

lemma trace_step_mem (symbols : List SymbolRow) (d : Nat) (st : TraceState)
    (r : ReferenceRow) (s : ImpactedSymbol)
    (hs : s ∈ (trace_step symbols d st r).impacted) :
    s ∈ st.impacted ∨
      (s.distance = d ∧ s.impact_type = if d = 1 then "direct" else "transitive") := by
  unfold trace_step at hs
  cases hfind : symbols.find? (fun x => x.id == r.from_symbol_id) with
  | none => rw [hfind] at hs; exact Or.inl hs
  | some sym =>
    rw [hfind] at hs
    by_cases hv : st.visited.contains r.from_symbol_id
    · simp only [hv, if_true, ite_true] at hs
      exact Or.inl hs
    · simp only [hv, Bool.false_eq_true, if_false, ite_false] at hs
      rcases List.mem_append.mp hs with h | h
      · exact Or.inl h
      · rw [List.mem_singleton] at h
        subst h
        exact Or.inr ⟨rfl, rfl⟩

lemma trace_fold_mem (symbols : List SymbolRow) (d : Nat) :
    ∀ (layer : List ReferenceRow) (st : TraceState) (s : ImpactedSymbol),
      s ∈ (layer.foldl (trace_step symbols d) st).impacted →
      s ∈ st.impacted ∨
        (s.distance = d ∧ s.impact_type = if d = 1 then "direct" else "transitive") := by
  intro layer
  induction layer with
  | nil => intro st s hs; exact Or.inl hs
  | cons r rest ih =>
    intro st s hs
    rcases ih (trace_step symbols d st r) s hs with h | h
    · exact trace_step_mem symbols d st r s h
    · exact Or.inr h

lemma trace_loop_impactProp (symbols : List SymbolRow) (refs : List ReferenceRow)
    (maxDepth : Nat) :
    ∀ (gas : Nat) (current : List String) (distance : Nat) (visited : List String)
      (impacted : List ImpactedSymbol) (fsy : List (String × List ImpactedSymbol)),
      distance + gas = maxDepth + 1 → 1 ≤ distance →
      (∀ s ∈ impacted, impactProp maxDepth s) →
      ∀ s ∈ (trace_loop symbols refs gas current distance visited impacted fsy).1,
        impactProp maxDepth s := by
  intro gas
  induction gas with
  | zero =>
    intro current distance visited impacted fsy _ _ hP s hs
    cases current <;> exact hP s hs
  | succ gas ih =>
    intro current distance visited impacted fsy hgas hd hP s hs
    cases current with
    | nil => exact hP s hs
    | cons c cs =>
      rw [trace_loop] at hs
      refine ih _ (distance + 1) _ _ _ (by omega) (by omega) ?_ s hs
      intro x hx
      rcases trace_fold_mem symbols distance _ _ x hx with h | ⟨h1, h2⟩
      · exact hP x h
      · refine ⟨by omega, by omega, ?_⟩
        rw [h1]
        exact h2

/-- The initial-seed/uniqueness invariant of the BFS state used for C10. -/
def seedInv (ids0 : List String) (st : TraceState) : Prop :=
  (st.impacted.map (·.id)).Nodup
  ∧ (∀ s ∈ st.impacted, s.id ∈ st.visited)
  ∧ (∀ x ∈ ids0, x ∈ st.visited)
  ∧ (∀ s ∈ st.impacted, s.id ∉ ids0)

lemma trace_step_seedInv (symbols : List SymbolRow) (d : Nat) (ids0 : List String)
    (st : TraceState) (r : ReferenceRow) (h : seedInv ids0 st) :
    seedInv ids0 (trace_step symbols d st r) := by
  obtain ⟨hnd, hvis, hseed, hdis⟩ := h
  unfold trace_step
  cases hfind : symbols.find? (fun x => x.id == r.from_symbol_id) with
  | none => exact ⟨hnd, hvis, hseed, hdis⟩
  | some sym =>
    by_cases hv : st.visited.contains r.from_symbol_id
    · simp only [hv, if_true, ite_true]
      exact ⟨hnd, hvis, hseed, hdis⟩
    · simp only [hv, Bool.false_eq_true, if_false, ite_false]
      have hid : sym.id = r.from_symbol_id := by
        have := List.find?_some hfind
        simpa using this
      have hnotvis : r.from_symbol_id ∉ st.visited := by
        intro hmem
        exact hv (List.elem_eq_true_of_mem hmem)
      refine ⟨?_, ?_, ?_, ?_⟩
      · rw [List.map_append]
        simp only [List.map_cons, List.map_nil]
        rw [List.nodup_append]
        refine ⟨hnd, List.nodup_singleton _, ?_⟩
        intro a ha hb
        rw [List.mem_singleton] at hb
        subst hb
        rw [List.mem_map] at ha
        obtain ⟨x, hx, hxid⟩ := ha
        rw [hid] at hxid
        exact hnotvis (hxid ▸ hvis x hx)
      · intro s hsm
        rcases List.mem_append.mp hsm with hsm | hsm
        · exact List.mem_append.mpr (Or.inl (hvis s hsm))
        · rw [List.mem_singleton] at hsm
          subst hsm
          simp [hid]
      · intro x hx
        exact List.mem_append.mpr (Or.inl (hseed x hx))
      · intro s hsm
        rcases List.mem_append.mp hsm with hsm | hsm
        · exact hdis s hsm
        · rw [List.mem_singleton] at hsm
          subst hsm
          simp only [hid]
          intro hcon
          exact hnotvis (hseed _ hcon)

lemma trace_fold_seedInv (symbols : List SymbolRow) (d : Nat) (ids0 : List String) :
    ∀ (layer : List ReferenceRow) (st : TraceState), seedInv ids0 st →
      seedInv ids0 (layer.foldl (trace_step symbols d) st) := by
  intro layer
  induction layer with
  | nil => intro st h; exact h
  | cons r rest ih =>
    intro st h
    exact ih _ (trace_step_seedInv symbols d ids0 st r h)

lemma trace_loop_seedInv (symbols : List SymbolRow) (refs : List ReferenceRow)
    (ids0 : List String) :
    ∀ (gas : Nat) (current : List String) (distance : Nat) (visited : List String)
      (impacted : List ImpactedSymbol) (fsy : List (String × List ImpactedSymbol)),
      seedInv ids0 ⟨visited, [], impacted, fsy⟩ →
      (((trace_loop symbols refs gas current distance visited impacted fsy).1.map
          (·.id)).Nodup
      ∧ ∀ s ∈ (trace_loop symbols refs gas current distance visited impacted fsy).1,
          s.id ∉ ids0) := by
  intro gas
  induction gas with
  | zero =>
    intro current distance visited impacted fsy h
    cases current <;> exact ⟨h.1, h.2.2.2⟩
  | succ gas ih =>
    intro current distance visited impacted fsy h
    cases current with
    | nil => exact ⟨h.1, h.2.2.2⟩
    | cons c cs =>
      rw [trace_loop]
      have hst := trace_fold_seedInv symbols distance ids0
        (refs.filter fun r =>
          match r.to_symbol_id with
          | some t => (c :: cs).contains t
          | none => false)
        ⟨visited, [], impacted, fsy⟩ h
      exact ih _ (distance + 1) _ _ _ ⟨hst.1, hst.2.1, hst.2.2.1, hst.2.2.2⟩

/-! ### Claim theorems: impact BFS -/

/-- C3: every symbol returned by `_trace_impact` (default depth cap 3) has
distance between 1 and 3 — depth 4 and beyond is never emitted — and its
label is fully determined by that distance: "direct" exactly at distance 1
and "transitive" at every greater distance. -/
theorem trace_impact_distance_bound (files : List FileRow) (symbols : List SymbolRow)
    (refs : List ReferenceRow) (symbol_ids : List String) :
    ∀ s ∈ (trace_impact files symbols refs symbol_ids).1,
      1 ≤ s.distance ∧ s.distance ≤ 3 ∧
        s.impact_type = (if s.distance = 1 then "direct" else "transitive") ∧
        (s.impact_type = "direct" ↔ s.distance = 1) := by
  intro s hs
  obtain ⟨h1, h2, h3⟩ := trace_loop_impactProp symbols refs 3 3 symbol_ids 1
    symbol_ids [] [] rfl (by omega) (by intro x hx; cases hx) s hs
  refine ⟨h1, h2, h3, ?_⟩
  by_cases hone : s.distance = 1
  · rw [if_pos hone] at h3
    simp [h3, hone]
  · rw [if_neg hone] at h3
    rw [h3]
    constructor
    · intro habs
      exact absurd habs (by decide)
    · intro habs
      exact absurd habs hone

/-- C3 witness: the two-hop chain s3 → s2 → s1 with changed set {s1}
produces both a distance-1 "direct" member and a distance-2 "transitive"
member, on each of which the bound theorem is instantiated. -/
theorem trace_impact_distance_bound_witness :
    ((⟨"s2", "f2", "function", "b.py", 1, 2, "direct", 1⟩ : ImpactedSymbol) ∈
      (trace_impact
        [⟨"b.py", some "python"⟩]
        [⟨"s1", "f1", "function", some "a.py", 1, 2⟩,
         ⟨"s2", "f2", "function", some "b.py", 1, 2⟩,
         ⟨"s3", "f3", "function", some "c.py", 1, 2⟩]
        [⟨"s2", some "s1"⟩, ⟨"s3", some "s2"⟩] ["s1"]).1
      ∧ (1 ≤ (1 : Nat) ∧ (1 : Nat) ≤ 3
        ∧ "direct" = (if (1 : Nat) = 1 then "direct" else "transitive")
        ∧ ("direct" = "direct" ↔ (1 : Nat) = 1)))
    ∧ ((⟨"s3", "f3", "function", "c.py", 1, 2, "transitive", 2⟩ : ImpactedSymbol) ∈
      (trace_impact
        [⟨"b.py", some "python"⟩]
        [⟨"s1", "f1", "function", some "a.py", 1, 2⟩,
         ⟨"s2", "f2", "function", some "b.py", 1, 2⟩,
         ⟨"s3", "f3", "function", some "c.py", 1, 2⟩]
        [⟨"s2", some "s1"⟩, ⟨"s3", some "s2"⟩] ["s1"]).1
      ∧ (1 ≤ (2 : Nat) ∧ (2 : Nat) ≤ 3
        ∧ "transitive" = (if (2 : Nat) = 1 then "direct" else "transitive")
        ∧ ("transitive" = "direct" ↔ (2 : Nat) = 1))) :=
  ⟨⟨by decide,
    trace_impact_distance_bound
      [⟨"b.py", some "python"⟩]
      [⟨"s1", "f1", "function", some "a.py", 1, 2⟩,
       ⟨"s2", "f2", "function", some "b.py", 1, 2⟩,
       ⟨"s3", "f3", "function", some "c.py", 1, 2⟩]
      [⟨"s2", some "s1"⟩, ⟨"s3", some "s2"⟩] ["s1"]
      ⟨"s2", "f2", "function", "b.py", 1, 2, "direct", 1⟩ (by decide)⟩,
   ⟨by decide,
    trace_impact_distance_bound
      [⟨"b.py", some "python"⟩]
      [⟨"s1", "f1", "function", some "a.py", 1, 2⟩,
       ⟨"s2", "f2", "function", some "b.py", 1, 2⟩,
       ⟨"s3", "f3", "function", some "c.py", 1, 2⟩]
      [⟨"s2", some "s1"⟩, ⟨"s3", some "s2"⟩] ["s1"]
      ⟨"s3", "f3", "function", "c.py", 1, 2, "transitive", 2⟩ (by decide)⟩⟩

/-- C10: the impacted list never repeats a symbol id and never contains an
id from the initial changed set — the visited set is seeded with the
changed ids, and a symbol is appended only on first visit. -/
theorem trace_impact_nodup_and_disjoint (files : List FileRow)
    (symbols : List SymbolRow) (refs : List ReferenceRow) (symbol_ids : List String) :
    (((trace_impact files symbols refs symbol_ids).1.map (·.id)).Nodup)
    ∧ ∀ s ∈ (trace_impact files symbols refs symbol_ids).1, s.id ∉ symbol_ids := by
  refine trace_loop_seedInv symbols refs symbol_ids 3 symbol_ids 1 symbol_ids [] [] ?_
  refine ⟨List.nodup_nil, ?_, fun x hx => hx, ?_⟩
  · intro s hs; simp at hs
  · intro s hs; simp at hs

/-- C10 witness: on the two-hop chain the impacted ids are distinct and the
changed id s1 is absent. -/
theorem trace_impact_nodup_and_disjoint_witness :
    ((((trace_impact
        [⟨"b.py", some "python"⟩]
        [⟨"s1", "f1", "function", some "a.py", 1, 2⟩,
         ⟨"s2", "f2", "function", some "b.py", 1, 2⟩,
         ⟨"s3", "f3", "function", some "c.py", 1, 2⟩]
        [⟨"s2", some "s1"⟩, ⟨"s3", some "s2"⟩] ["s1"]).1.map (·.id)).Nodup)
    ∧ (⟨"s3", "f3", "function", "c.py", 1, 2, "transitive", 2⟩ : ImpactedSymbol).id
        ∉ ["s1"]) :=
  ⟨(trace_impact_nodup_and_disjoint
      [⟨"b.py", some "python"⟩]
      [⟨"s1", "f1", "function", some "a.py", 1, 2⟩,
       ⟨"s2", "f2", "function", some "b.py", 1, 2⟩,
       ⟨"s3", "f3", "function", some "c.py", 1, 2⟩]
      [⟨"s2", some "s1"⟩, ⟨"s3", some "s2"⟩] ["s1"]).1,
   (trace_impact_nodup_and_disjoint
      [⟨"b.py", some "python"⟩]
      [⟨"s1", "f1", "function", some "a.py", 1, 2⟩,
       ⟨"s2", "f2", "function", some "b.py", 1, 2⟩,
       ⟨"s3", "f3", "function", some "c.py", 1, 2⟩]
      [⟨"s2", some "s1"⟩, ⟨"s3", some "s2"⟩] ["s1"]).2
      ⟨"s3", "f3", "function", "c.py", 1, 2, "transitive", 2⟩ (by decide)⟩

/-! ### Scanner output record (`indexer/scanner.py`, `ScannedFile`) -/

/-- The Scanner's `ScannedFile` dataclass; `absolute_path` is omitted (it is
the root joined with `path` and is read by no verified operation). -/
structure ScannedFile where
  path : String
  language : Option String
  size_bytes : Nat
  is_binary : Bool
  sha256 : Option String
  line_count : Nat
  content : Option String
deriving DecidableEq, Repr

/-! ### Incremental indexer (`services/incremental_indexer.py`) -/

/-- The indexer's `IncrementalDiff` dataclass. -/
structure IncrementalDiff where
  added_files : List ScannedFile
  modified_files : List ScannedFile
  deleted_paths : List String
  unchanged_count : Nat
deriving DecidableEq, Repr

/-- Lookup in the `{path: sha256}` dict loaded from the base snapshot
(`get_file_hashes`); `File.sha256` is a nullable column.  Duplicate paths
cannot occur in a snapshot (path is unique per snapshot), so first-match
lookup agrees with the Python dict. -/
def base_hash (baseHashes : List (String × Option String)) (p : String) :
    Option (Option String) :=
  (baseHashes.find? (fun e => e.1 == p)).map (·.2)

/-- `IncrementalIndexer.compute_diff` (incremental_indexer.py lines
61-119), over the scanner output `currentFiles` and the base snapshot's
path-to-hash map (`none` for the no-base branch).  Python iterates the
derived path sets in unspecified set order; here the current list's order
is used for `added`/`modified`/unchanged and the base list's order for
`deleted`, which fixes only the iteration order, not the contents. -/
def compute_diff (currentFiles : List ScannedFile)
    (base : Option (List (String × Option String))) : IncrementalDiff :=
  match base with
  | none => ⟨currentFiles, [], [], 0⟩
  | some baseHashes =>
    let basePaths := baseHashes.map (·.1)
    let curPaths := currentFiles.map (·.path)
    let added_files := currentFiles.filter (fun f => !basePaths.contains f.path)
    let deleted := basePaths.filter (fun p => !curPaths.contains p)
    let common := currentFiles.filter (fun f => basePaths.contains f.path)
    let modified_files := common.filter
      (fun f => !(base_hash baseHashes f.path == some f.sha256))
    let unchanged_count :=
      (common.filter (fun f => base_hash baseHashes f.path == some f.sha256)).length
    ⟨added_files, modified_files, deleted, unchanged_count⟩

/-! ### Lemmas about `compute_diff` -/

lemma contains_iff {α : Type} [BEq α] [LawfulBEq α] (l : List α) (a : α) :
    l.contains a = true ↔ a ∈ l :=
  ⟨List.mem_of_elem_eq_true, List.elem_eq_true_of_mem⟩

lemma find_self_of_nodup (f : ScannedFile) :
    ∀ (files : List ScannedFile), (files.map (·.path)).Nodup → f ∈ files →
      (files.map fun g => (g.path, g.sha256)).find? (fun e => e.1 == f.path)
        = some (f.path, f.sha256) := by
  intro files
  induction files with
  | nil => intro _ hf; cases hf
  | cons g rest ih =>
    intro hnd hf
    rw [List.map_cons] at hnd
    rw [List.map_cons]
    rcases List.mem_cons.mp hf with hfe | hfr
    · subst hfe
      rw [List.find?_cons_of_pos _ (by simp)]
    · have hne : g.path ≠ f.path := by
        intro he
        exact (List.nodup_cons.mp hnd).1 (by rw [he]; exact List.mem_map.mpr ⟨f, hfr, rfl⟩)
      rw [List.find?_cons_of_neg _ (by simp [hne])]
      exact ih (List.nodup_cons.mp hnd).2 hfr

lemma base_hash_self (files : List ScannedFile) (f : ScannedFile)
    (hnd : (files.map (·.path)).Nodup) (hf : f ∈ files) :
    base_hash (files.map fun g => (g.path, g.sha256)) f.path = some f.sha256 := by
  unfold base_hash
  rw [find_self_of_nodup f files hnd hf]
  rfl

/-! ### Claim theorem: incremental diff -/

/-- C5: diffing a tree against a base snapshot built from that very tree
yields empty added/modified/deleted and `unchanged_count = |files(S)|`; in
general `added` holds exactly the current files whose path is absent from
the base, `deleted` exactly the base paths absent from the current tree,
and a common path is modified exactly when its hash differs from the base
hash. -/
theorem compute_diff_characterization (currentFiles : List ScannedFile)
    (baseHashes : List (String × Option String))
    (hnd : (currentFiles.map (·.path)).Nodup) :
    (compute_diff currentFiles (some (currentFiles.map fun g => (g.path, g.sha256)))
      = ⟨[], [], [], currentFiles.length⟩)
    ∧ (∀ f, f ∈ (compute_diff currentFiles (some baseHashes)).added_files ↔
        f ∈ currentFiles ∧ f.path ∉ baseHashes.map (·.1))
    ∧ (∀ p, p ∈ (compute_diff currentFiles (some baseHashes)).deleted_paths ↔
        p ∈ baseHashes.map (·.1) ∧ p ∉ currentFiles.map (·.path))
    ∧ (∀ f, f ∈ (compute_diff currentFiles (some baseHashes)).modified_files ↔
        f ∈ currentFiles ∧ f.path ∈ baseHashes.map (·.1) ∧
          base_hash baseHashes f.path ≠ some f.sha256) := by
  refine ⟨?_, ?_, ?_, ?_⟩
  · have hpaths : ∀ f ∈ currentFiles,
        f.path ∈ (currentFiles.map fun g => (g.path, g.sha256)).map (·.1) := by
      intro f hf
      simp only [List.map_map]
      exact List.mem_map.mpr ⟨f, hf, rfl⟩
    have hadd : currentFiles.filter
        (fun f => !((currentFiles.map fun g => (g.path, g.sha256)).map (·.1)).contains
          f.path) = [] := by
      rw [List.filter_eq_nil_iff]
      intro f hf
      simp
      exact ⟨f, hf, rfl⟩
    have hcommon : currentFiles.filter
        (fun f => ((currentFiles.map fun g => (g.path, g.sha256)).map (·.1)).contains
          f.path) = currentFiles := by
      rw [List.filter_eq_self]
      intro f hf
      exact List.elem_eq_true_of_mem (hpaths f hf)
    have hdel : ((currentFiles.map fun g => (g.path, g.sha256)).map (·.1)).filter
        (fun p => !(currentFiles.map (·.path)).contains p) = [] := by
      rw [List.filter_eq_nil_iff]
      intro p hp
      simp only [List.map_map, List.mem_map, Function.comp] at hp
      obtain ⟨f, hf, rfl⟩ := hp
      simp
      exact ⟨f, hf, rfl⟩
    have hmods : ∀ f ∈ currentFiles,
        (base_hash (currentFiles.map fun g => (g.path, g.sha256)) f.path
          == some f.sha256) = true := by
      intro f hf
      rw [base_hash_self currentFiles f hnd hf]
      exact beq_self_eq_true _
    have hmodnil : currentFiles.filter
        (fun f => !(base_hash (currentFiles.map fun g => (g.path, g.sha256)) f.path
          == some f.sha256)) = [] := by
      rw [List.filter_eq_nil_iff]
      intro f hf
      simp [hmods f hf]
    simp only [compute_diff, hadd, hcommon, hdel, hmodnil,
      List.filter_eq_self.mpr hmods]
  · intro f
    simp only [compute_diff, List.mem_filter, Bool.not_eq_eq_eq_not, Bool.not_true]
    constructor
    · rintro ⟨hf, hc⟩
      refine ⟨hf, fun hmem => ?_⟩
      have hcontra : (baseHashes.map (·.1)).contains f.path = true :=
        List.elem_eq_true_of_mem hmem
      rw [hcontra] at hc
      simp at hc
    · rintro ⟨hf, hnm⟩
      refine ⟨hf, ?_⟩
      cases hc : (baseHashes.map (·.1)).contains f.path
      · rfl
      · exact absurd (List.mem_of_elem_eq_true hc) hnm
  · intro p
    simp only [compute_diff, List.mem_filter, Bool.not_eq_eq_eq_not, Bool.not_true]
    constructor
    · rintro ⟨hp, hc⟩
      refine ⟨hp, fun hmem => ?_⟩
      have hcontra : (currentFiles.map (·.path)).contains p = true :=
        List.elem_eq_true_of_mem hmem
      rw [hcontra] at hc
      simp at hc
    · rintro ⟨hp, hnm⟩
      refine ⟨hp, ?_⟩
      cases hc : (currentFiles.map (·.path)).contains p
      · rfl
      · exact absurd (List.mem_of_elem_eq_true hc) hnm
  · intro f
    simp only [compute_diff, List.mem_filter, Bool.not_eq_eq_eq_not, Bool.not_true]
    constructor
    · rintro ⟨⟨hf, hc⟩, hm⟩
      refine ⟨hf, List.mem_of_elem_eq_true hc, fun he => ?_⟩
      rw [he] at hm
      rw [beq_self_eq_true] at hm
      cases hm
    · rintro ⟨hf, hmem, hne⟩
      refine ⟨⟨hf, List.elem_eq_true_of_mem hmem⟩, ?_⟩
      cases hb : (base_hash baseHashes f.path == some f.sha256)
      · rfl
      · exact absurd (eq_of_beq hb) hne

/-- C5 witness: a two-file tree diffed against the snapshot built from it
reports no changes, and the added-set characterization holds at a sample
file. -/
theorem compute_diff_characterization_witness :
    (compute_diff
      [⟨"a.py", some "python", 1, false, some "h1", 1, some "x"⟩,
       ⟨"b.py", some "python", 2, false, some "h2", 1, some "y"⟩]
      (some (([⟨"a.py", some "python", 1, false, some "h1", 1, some "x"⟩,
        ⟨"b.py", some "python", 2, false, some "h2", 1, some "y"⟩] :
          List ScannedFile).map fun g => (g.path, g.sha256)))
      = ⟨[], [], [], 2⟩)
    ∧ ((⟨"a.py", some "python", 1, false, some "h1", 1, some "x"⟩ : ScannedFile) ∈
        (compute_diff
          [⟨"a.py", some "python", 1, false, some "h1", 1, some "x"⟩,
           ⟨"b.py", some "python", 2, false, some "h2", 1, some "y"⟩]
          (some [("a.py", some "h1"), ("b.py", some "h2")])).added_files ↔
        (⟨"a.py", some "python", 1, false, some "h1", 1, some "x"⟩ : ScannedFile) ∈
          [(⟨"a.py", some "python", 1, false, some "h1", 1, some "x"⟩ : ScannedFile),
           ⟨"b.py", some "python", 2, false, some "h2", 1, some "y"⟩] ∧
        "a.py" ∉ [("a.py", (some "h1" : Option String)), ("b.py", some "h2")].map (·.1)) :=
  ⟨(compute_diff_characterization
      [⟨"a.py", some "python", 1, false, some "h1", 1, some "x"⟩,
       ⟨"b.py", some "python", 2, false, some "h2", 1, some "y"⟩]
      [("a.py", some "h1"), ("b.py", some "h2")] (by decide)).1,
   (compute_diff_characterization
      [⟨"a.py", some "python", 1, false, some "h1", 1, some "x"⟩,
       ⟨"b.py", some "python", 2, false, some "h2", 1, some "y"⟩]
      [("a.py", some "h1"), ("b.py", some "h2")] (by decide)).2.1
      ⟨"a.py", some "python", 1, false, some "h1", 1, some "x"⟩⟩

/-! ### File scanner (`indexer/scanner.py`) -/

/-- The fixed binary-extension set `BINARY_EXTENSIONS` (scanner.py lines
14-23). -/
def BINARY_EXTENSIONS : List String :=
  [".png", ".jpg", ".jpeg", ".gif", ".ico", ".svg", ".webp",
   ".mp3", ".mp4", ".wav", ".avi", ".mov",
   ".zip", ".tar", ".gz", ".rar", ".7z",
   ".exe", ".dll", ".so", ".dylib",
   ".pdf", ".doc", ".docx", ".xls", ".xlsx",
   ".pyc", ".pyo", ".class", ".o", ".obj",
   ".woff", ".woff2", ".ttf", ".eot", ".otf",
   ".db", ".sqlite", ".sqlite3"]

/-- The fixed extension → language table `EXTENSION_TO_LANGUAGE` (scanner.py
lines 37-80); lookups use the lowered suffix, so the ".R" entry is shadowed
by ".r". -/
def EXTENSION_TO_LANGUAGE : List (String × String) :=
  [(".py", "python"), (".js", "javascript"), (".jsx", "javascript"),
   (".ts", "typescript"), (".tsx", "typescript"), (".rs", "rust"),
   (".go", "go"), (".java", "java"), (".c", "c"), (".cpp", "cpp"),
   (".cc", "cpp"), (".h", "c"), (".hpp", "cpp"), (".cs", "csharp"),
   (".rb", "ruby"), (".php", "php"), (".swift", "swift"), (".kt", "kotlin"),
   (".scala", "scala"), (".r", "r"), (".R", "r"), (".sql", "sql"),
   (".sh", "shell"), (".bash", "shell"), (".zsh", "shell"),
   (".html", "html"), (".htm", "html"), (".css", "css"), (".scss", "scss"),
   (".sass", "sass"), (".less", "less"), (".json", "json"),
   (".yaml", "yaml"), (".yml", "yaml"), (".toml", "toml"), (".xml", "xml"),
   (".md", "markdown"), (".mdx", "markdown"), (".rst", "rst"),
   (".txt", "text"), (".vue", "vue"), (".svelte", "svelte")]

/-- One on-disk file as the scanner observes it: its name within the
directory and the results of the syscalls the scanner makes on it.
`content` is the text read with `errors="ignore"`, `sha256` the hex digest
of the raw bytes, `has_nul_prefix` whether the first 8 KiB contain a NUL
byte; `stat_ok`, `probe_ok` and `read_ok` model per-file IO failures of
`stat`, the binary probe `open(rb)` and the text read respectively. -/
structure FileNode where
  name : String
  size_bytes : Nat
  stat_ok : Bool
  probe_ok : Bool
  read_ok : Bool
  has_nul_prefix : Bool
  content : String
  sha256 : String
deriving DecidableEq, Repr

mutual
/-- A directory tree in the enumeration order `os.walk` observes.  The
subdirectory list is a dedicated mutual type rather than
`List (String × Dir)` so that recursion over the tree is structural. -/
inductive Dir : Type where
  | node (subdirs : DirList) (files : List FileNode)

/-- The subdirectories of a `Dir`, each with its name, in listing order. -/
inductive DirList : Type where
  | nil
  | cons (name : String) (d : Dir) (rest : DirList)
end

/-- `str.lower()` character by character (extensions are ASCII, where Python
`lower` and `Char.toLower` agree). -/
def py_lower (s : String) : String := String.mk (s.data.map Char.toLower)

/-- `pathlib.PurePath.suffix`: the substring from the last dot, empty when
that dot is absent, leading or trailing (CPython: `0 < i < len(name)-1`). -/
def path_suffix (name : String) : String :=
  let cs := name.data
  let n := cs.length
  match ((List.range n).filter (fun i => cs.getD i ' ' = '.')).getLast? with
  | some i => if 0 < i ∧ i < n - 1 then String.mk (cs.drop i) else ""
  | none => ""

/-- `FileScanner._is_binary` (scanner.py lines 142-157): binary extension,
else an unreadable probe, else a NUL byte in the first 8 KiB. -/
def is_binary_file (f : FileNode) : Bool :=
  if BINARY_EXTENSIONS.contains (py_lower (path_suffix f.name)) then true
  else if !f.probe_ok then true
  else f.has_nul_prefix

/-- `FileScanner._detect_language` (scanner.py lines 159-162). -/
def detect_language (name : String) : Option String :=
  (EXTENSION_TO_LANGUAGE.find? (fun e => e.1 == py_lower (path_suffix name))).map (·.2)

/-- `content.count("\n") + 1` (scanner.py line 215). -/
def line_count_of (content : String) : Nat :=
  (content.data.filter (fun c => c == '\n')).length + 1

/-- Relative-path join: `str(Path(rel) / name)` with POSIX separators; the
root's relative path is "" (`Path(".")` joins transparently). -/
def join_rel (rel name : String) : String :=
  if rel = "" then name else rel ++ "/" ++ name

/-- Per-file body of `FileScanner.scan` (scanner.py lines 183-229): ignored,
stat-failing and oversized (`size > max_file_size`) files are skipped
outright; binary files yield no hash, line count or content; text files
whose read fails are skipped; the rest yield hash, line count, and content
when `include_content` is set. -/
def scan_file (ignore : String → Bool) (max_file_size : Nat)
    (include_content : Bool) (rel : String) (f : FileNode) : Option ScannedFile :=
  let rel_path := join_rel rel f.name
  if ignore rel_path then none
  else if !f.stat_ok then none
  else if max_file_size < f.size_bytes then none
  else
    let is_binary := is_binary_file f
    let language := if is_binary then none else detect_language f.name
    if is_binary then
      some ⟨rel_path, language, f.size_bytes, true, none, 0, none⟩
    else if !f.read_ok then none
    else
      some ⟨rel_path, language, f.size_bytes, false, some f.sha256,
        line_count_of f.content, if include_content then some f.content else none⟩

mutual
/-- `FileScanner.scan` (scanner.py lines 172-229): `os.walk` top-down in
directory-listing order; subdirectories whose relative path matches the
ignore predicate are pruned in place and not descended into; each
directory's files are yielded before its subdirectories' contents.  The
ignore predicate abstracts `_should_ignore` (gitignore matching through
the external pathspec library plus the ALWAYS_IGNORE components). -/
def scan (ignore : String → Bool) (max_file_size : Nat) (include_content : Bool)
    (rel : String) : Dir → List ScannedFile
  | .node subdirs files =>
    files.filterMap (scan_file ignore max_file_size include_content rel) ++
      scan_dirs ignore max_file_size include_content rel subdirs

def scan_dirs (ignore : String → Bool) (max_file_size : Nat) (include_content : Bool)
    (rel : String) : DirList → List ScannedFile
  | .nil => []
  | .cons name d rest =>
    (if !ignore (join_rel rel name) then
      scan ignore max_file_size include_content (join_rel rel name) d
    else []) ++ scan_dirs ignore max_file_size include_content rel rest
end

mutual
/-- The relative paths of every non-ignored file in `os.walk` order (pruned
like `scan` but before any stat/size/binary/read gating): the order in
which `scan` emits whatever it emits. -/
def walk_paths (ignore : String → Bool) (rel : String) : Dir → List String
  | .node subdirs files =>
    ((files.map (fun f => join_rel rel f.name)).filter (fun p => !ignore p)) ++
      walk_paths_dirs ignore rel subdirs

def walk_paths_dirs (ignore : String → Bool) (rel : String) : DirList → List String
  | .nil => []
  | .cons name d rest =>
    (if !ignore (join_rel rel name) then walk_paths ignore (join_rel rel name) d
    else []) ++ walk_paths_dirs ignore rel rest
end


/-! ### Lemmas about the scanner -/

lemma scan_file_some (ignore : String → Bool) (maxs : Nat) (incl : Bool)
    (rel : String) (f : FileNode) (r : ScannedFile)
    (h : scan_file ignore maxs incl rel f = some r) :
    ignore (join_rel rel f.name) = false ∧ r.path = join_rel rel f.name ∧
      r.size_bytes ≤ maxs := by
  simp only [scan_file] at h
  split_ifs at h with h1 h2 h3 h4 h5 h6 <;> injection h with h <;> subst h <;>
    exact ⟨by simpa using h1, rfl, Nat.le_of_not_lt h3⟩

lemma scan_files_paths_sublist (ignore : String → Bool) (maxs : Nat) (incl : Bool)
    (rel : String) :
    ∀ files : List FileNode,
      ((files.filterMap (scan_file ignore maxs incl rel)).map (·.path)).Sublist
        ((files.map (fun f => join_rel rel f.name)).filter (fun p => !ignore p)) := by
  intro files
  induction files with
  | nil => simp
  | cons f rest ih =>
    rw [List.filterMap_cons, List.map_cons, List.filter_cons]
    cases hsf : scan_file ignore maxs incl rel f with
    | none =>
      cases hig : !ignore (join_rel rel f.name)
      · simpa [hig] using ih
      · simp only [hig, if_true, ite_true]
        exact ih.cons _
    | some r =>
      obtain ⟨hig, hpath, _⟩ := scan_file_some ignore maxs incl rel f r hsf
      have hig2 : (!ignore (join_rel rel f.name)) = true := by simp [hig]
      rw [hig2, if_pos rfl, List.map_cons, hpath]
      exact ih.cons₂ _

/-! ### Claim theorems: scanner -/

/-- C6 (amended): the Scanner yields its records in `os.walk` pre-order —
each directory's surviving files in listing order, then the kept
subdirectories' contents in listing order — a subsequence of the full walk
enumeration; it performs no sorting, so the output is not in general
lexicographic by relative path.  Determinism over a fixed tree (fixed
listing order) holds since the traversal is a pure function of the tree. -/
theorem scan_emits_walk_order (ignore : String → Bool) (maxs : Nat) (incl : Bool) :
    ∀ (d : Dir) (rel : String),
      ((scan ignore maxs incl rel d).map (·.path)).Sublist (walk_paths ignore rel d) :=
  Dir.rec
    (motive_2 := fun dl => ∀ rel,
      ((scan_dirs ignore maxs incl rel dl).map (·.path)).Sublist
        (walk_paths_dirs ignore rel dl))
    (fun subdirs files ih rel => by
      rw [scan, walk_paths, List.map_append]
      exact List.Sublist.append (scan_files_paths_sublist ignore maxs incl rel files)
        (ih rel))
    (fun rel => by simp [scan_dirs, walk_paths_dirs])
    (fun name d rest ihd ihr rel => by
      rw [scan_dirs, walk_paths_dirs, List.map_append]
      refine List.Sublist.append ?_ (ihr rel)
      by_cases hig : ignore (join_rel rel name)
      · simp [hig]
      · simp only [hig, Bool.not_false, if_true, ite_true]
        exact ihd (join_rel rel name))

/-- Lexicographic comparison of relative paths, character by character: the
order the claim says the Scanner's output follows. -/
def lex_le (a b : List Char) : Bool :=
  match a, b with
  | [], _ => true
  | _ :: _, [] => false
  | c :: a1, d :: b1 => if c = d then lex_le a1 b1 else decide (c < d)

/-- Whether a path sequence is lexicographically sorted. -/
def lex_sorted (ps : List String) : Bool :=
  match ps with
  | [] => true
  | [_] => true
  | a :: b :: rest => lex_le a.data b.data && lex_sorted (b :: rest)

/-- C6 counterexample: a root file `z.txt` and a subdirectory `a` holding
`x.txt`.  The walk yields `z.txt` before `a/x.txt`, yet `"a/x.txt"` sorts
before `"z.txt"`, so the output is not in lexicographic order of relative
path. -/
theorem scan_not_lexicographic :
    ((scan (fun _ => false) 1048576 true ""
        (Dir.node
          (DirList.cons "a"
            (Dir.node DirList.nil [⟨"x.txt", 1, true, true, true, false, "x", "hx"⟩])
            DirList.nil)
          [⟨"z.txt", 1, true, true, true, false, "z", "hz"⟩])).map (·.path)
      = ["z.txt", "a/x.txt"])
    ∧ lex_sorted ((scan (fun _ => false) 1048576 true ""
        (Dir.node
          (DirList.cons "a"
            (Dir.node DirList.nil [⟨"x.txt", 1, true, true, true, false, "x", "hx"⟩])
            DirList.nil)
          [⟨"z.txt", 1, true, true, true, false, "z", "hz"⟩])).map (·.path)) = false := by
  exact ⟨by decide, by decide⟩

/-- C7 (amended): a file whose size exceeds `max_file_size` is skipped
entirely — it does not appear in the Scanner's output at all (hence is not
parsed); every emitted record satisfies `size_bytes ≤ max_file_size`. -/
theorem scan_size_bound (ignore : String → Bool) (maxs : Nat) (incl : Bool) :
    ∀ (d : Dir) (rel : String) (r : ScannedFile),
      r ∈ scan ignore maxs incl rel d → r.size_bytes ≤ maxs :=
  Dir.rec
    (motive_2 := fun dl => ∀ rel r, r ∈ scan_dirs ignore maxs incl rel dl →
      r.size_bytes ≤ maxs)
    (fun subdirs files ih rel r hr => by
      rw [scan] at hr
      rcases List.mem_append.mp hr with hr | hr
      · obtain ⟨f, _, hf⟩ := List.mem_filterMap.mp hr
        exact (scan_file_some ignore maxs incl rel f r hf).2.2
      · exact ih rel r hr)
    (fun rel r hr => by simp [scan_dirs] at hr)
    (fun name d rest ihd ihr rel r hr => by
      rw [scan_dirs] at hr
      rcases List.mem_append.mp hr with hr | hr
      · by_cases hig : ignore (join_rel rel name)
        · simp [hig] at hr
        · simp only [hig, Bool.not_false, if_true, ite_true] at hr
          exact ihd (join_rel rel name) r hr
      · exact ihr rel r hr)

/-- C7 witness: a one-file tree whose file fits the limit; the bound theorem
is instantiated on its emitted record. -/
theorem scan_size_bound_witness :
    (⟨"ok.py", some "python", 5, false, some "h", 1, some "abc"⟩ : ScannedFile) ∈
      scan (fun _ => false) 1048576 true ""
        (Dir.node DirList.nil [⟨"ok.py", 5, true, true, true, false, "abc", "h"⟩])
    ∧ (⟨"ok.py", some "python", 5, false, some "h", 1, some "abc"⟩ :
        ScannedFile).size_bytes ≤ 1048576 :=
  ⟨by decide,
    scan_size_bound (fun _ => false) 1048576 true
      (Dir.node DirList.nil [⟨"ok.py", 5, true, true, true, false, "abc", "h"⟩]) ""
      ⟨"ok.py", some "python", 5, false, some "h", 1, some "abc"⟩ (by decide)⟩

/-- C7 counterexample: a single file of 2,000,000 bytes against the default
1 MiB limit is absent from the output entirely, not emitted with null
content as the claim states. -/
theorem scan_drops_oversized :
    scan (fun _ => false) 1048576 true ""
      (Dir.node DirList.nil [⟨"big.py", 2000000, true, true, true, false, "b", "hb"⟩])
      = [] := by
  decide

/-! ### Parser output types (`indexer/parser.py`) -/

/-- The parser's `SymbolKind` enum (parser.py lines 21-29), with the
source's member names. -/
inductive SymbolKind where
  | MODULE
  | CLASS
  | FUNCTION
  | METHOD
  | VARIABLE
  | CONSTANT
  | IMPORT
deriving DecidableEq, Repr

/-- The parser's `ExtractedSymbol` dataclass (parser.py lines 31-43). -/
structure ExtractedSymbol where
  name : String
  kind : SymbolKind
  start_line : Nat
  end_line : Nat
  start_col : Nat := 0
  end_col : Nat := 0
  signature : Option String := none
  docstring : Option String := none
  parent_name : Option String := none
deriving DecidableEq, Repr

/-- The parser's `ExtractedImport` dataclass (parser.py lines 45-52). -/
structure ExtractedImport where
  module : String
  names : List String := []
  «alias» : Option String := none
  line : Nat := 0
  is_relative : Bool := false
deriving DecidableEq, Repr

/-- The parser's `ParseResult` dataclass (parser.py lines 55-60). -/
structure ParseResult where
  symbols : List ExtractedSymbol := []
  imports : List ExtractedImport := []
  errors : List String := []
deriving DecidableEq, Repr

/-! ### Indexing engine (`indexer/engine.py`) -/

/-- The snapshot lifecycle states (`models/snapshot.py`, `SnapshotStatus`). -/
inductive SnapshotStatus where
  | pending
  | indexing
  | ready
  | failed
deriving DecidableEq, Repr

/-- The columns of the snapshot row that `index_project` writes; progress is
integral (the stored values are 0.0 and 100.0). -/
structure SnapshotRec where
  status : SnapshotStatus
  progress : Nat
  error_message : Option String
  file_count : Nat
  symbol_count : Nat
  total_lines : Nat
deriving DecidableEq, Repr

/-- One engine run: the final snapshot row and the sequence of status values
the row has held, in order. -/
structure EngineRun where
  snapshot : SnapshotRec
  trace : List SnapshotStatus
deriving DecidableEq, Repr

/-- The symbols persisted for one scanned file (engine.py lines 119-142):
parsed only when both `content` and `language` are truthy (non-None,
non-empty). -/
def parsed_symbols (parse : String → String → ParseResult) (f : ScannedFile) :
    List ExtractedSymbol :=
  match f.content, f.language with
  | some c, some l => if c = "" ∨ l = "" then [] else (parse c l).symbols
  | _, _ => []

/-- `IndexingEngine.index_project` (engine.py lines 41-168), parameterized
over the parser.  The snapshot row is created directly in `INDEXING` with
progress 0 (lines 73-79); on success (lines 152-157) it is finalized to
`READY` with progress 100 and the three counters; on an exception, here
modelled as the scan raising with message `e`, the row is set to `FAILED`
with the message truncated to its first 1000 characters (lines 164-167,
Python slices strings by characters). -/
def index_project (parse : String → String → ParseResult)
    (scanOutcome : Except String (List ScannedFile)) : EngineRun :=
  match scanOutcome with
  | .error e =>
    ⟨⟨.failed, 0, some (String.mk (e.data.take 1000)), 0, 0, 0⟩,
      [.indexing, .failed]⟩
  | .ok files =>
    ⟨⟨.ready, 100, none, files.length,
      (files.map (fun f => (parsed_symbols parse f).length)).sum,
      (files.map (·.line_count)).sum⟩,
      [.indexing, .ready]⟩

/-! ### Claim theorems: indexing engine -/

/-- C8 (amended): a snapshot produced by a build is created directly in
state INDEXING (never PENDING) with progress 0, and ends in READY with
progress 100 and the file/symbol/line counters set on success, or in FAILED
with `error_message` equal to the exception message truncated to 1000
characters on an exception; no other terminal state is reachable. -/
theorem index_project_lifecycle (parse : String → String → ParseResult)
    (o : Except String (List ScannedFile)) :
    ((index_project parse o).trace
      = [SnapshotStatus.indexing, (index_project parse o).snapshot.status])
    ∧ ((index_project parse o).snapshot.status = SnapshotStatus.ready
        ∨ (index_project parse o).snapshot.status = SnapshotStatus.failed)
    ∧ (∀ files, o = Except.ok files →
        (index_project parse o).snapshot =
          ⟨SnapshotStatus.ready, 100, none, files.length,
            (files.map (fun f => (parsed_symbols parse f).length)).sum,
            (files.map (·.line_count)).sum⟩)
    ∧ (∀ e, o = Except.error e →
        (index_project parse o).snapshot.status = SnapshotStatus.failed
        ∧ (index_project parse o).snapshot.error_message
            = some (String.mk (e.data.take 1000))) := by
  cases o with
  | error e =>
    refine ⟨rfl, Or.inr rfl, ?_, ?_⟩
    · intro files h
      cases h
    · intro e2 h
      cases h
      exact ⟨rfl, rfl⟩
  | ok files =>
    refine ⟨rfl, Or.inl rfl, ?_, ?_⟩
    · intro files2 h
      cases h
      rfl
    · intro e h
      cases h

/-- C8 witness: the lifecycle theorem instantiated on a successful empty
build and on a failing build with message "boom". -/
theorem index_project_lifecycle_witness :
    ((index_project (fun _ _ => {}) (Except.ok [])).snapshot
      = ⟨SnapshotStatus.ready, 100, none, ([] : List ScannedFile).length,
          (([] : List ScannedFile).map
            (fun f => (parsed_symbols (fun _ _ => {}) f).length)).sum,
          (([] : List ScannedFile).map (·.line_count)).sum⟩)
    ∧ ((index_project (fun _ _ => {}) (Except.error "boom")).snapshot.status
        = SnapshotStatus.failed
      ∧ (index_project (fun _ _ => {}) (Except.error "boom")).snapshot.error_message
        = some (String.mk ("boom".data.take 1000))) :=
  ⟨(index_project_lifecycle (fun _ _ => {}) (Except.ok [])).2.2.1 [] rfl,
   (index_project_lifecycle (fun _ _ => {}) (Except.error "boom")).2.2.2 "boom" rfl⟩

/-- C8 counterexample: a build's snapshot row is created in INDEXING; the
status PENDING never occurs in its lifecycle trace, contradicting "starts
in state PENDING". -/
theorem snapshot_never_pending :
    (index_project (fun _ _ => {}) (Except.ok [])).trace
      = [SnapshotStatus.indexing, SnapshotStatus.ready]
    ∧ SnapshotStatus.pending ∉ (index_project (fun _ _ => {}) (Except.ok [])).trace := by
  exact ⟨rfl, by decide⟩

/-! ### Python regex fallback parser (`indexer/parser.py`, `_parse_python_regex`) -/

/-- Python regex `\w` over the ASCII range of the inputs in scope. -/
def is_word_char (c : Char) : Bool := c.isAlphanum || c == '_'

/-- Python `str.strip` / regex `\s` whitespace over the ASCII range
(space, tab, newline, carriage return, vertical tab, form feed). -/
def is_space_char (c : Char) : Bool :=
  c == ' ' || c == '\t' || c == '\n' || c == '\r' || c.toNat == 11 || c.toNat == 12

/-- `str.strip()`. -/
def py_strip (s : String) : String :=
  String.mk (((s.data.dropWhile is_space_char).reverse.dropWhile is_space_char).reverse)

/-- `str.lstrip()`. -/
def py_lstrip (s : String) : String :=
  String.mk (s.data.dropWhile is_space_char)

/-- `str.startswith` over character lists. -/
def starts_with (pre l : List Char) : Bool := pre.isPrefixOf l

/-- The text before the first occurrence of `pat`, `none` when `pat` does
not occur: both Python's `pat in s` test and `s.split(pat)[0]`. -/
def find_sub (pat : List Char) : List Char → Option (List Char)
  | [] => if pat.isPrefixOf [] then some [] else none
  | c :: t =>
    if pat.isPrefixOf (c :: t) then some []
    else (find_sub pat t).map (c :: ·)

/-- `str.split(sep)` for a non-empty separator; the gas argument (the text
length on entry) bounds the number of separator occurrences, so the
exhausted branch is unreachable. -/
def py_split_go (sep : List Char) : Nat → List Char → List (List Char)
  | 0, l => [l]
  | gas + 1, l =>
    match find_sub sep l with
    | none => [l]
    | some pre => pre :: py_split_go sep gas (l.drop (pre.length + sep.length))

/-- `str.split(sep)` for a non-empty separator. -/
def py_split (sep : List Char) (l : List Char) : List (List Char) :=
  py_split_go sep l.length l

/-- The `class_pattern` regex `^class\s+(\w+)(?:\s*\([^)]*\))?\s*:` applied
with `.match` (parser.py line 121), returning the captured name.  Greedy
runs are maximal-munch (no following element can consume their
characters); the optional parenthesized group falls back to absence when
its continuation fails, as the regex engine backtracks. -/
def match_class (s : List Char) : Option String :=
  if starts_with "class".data s then
    let r1 := s.drop 5
    let r2 := r1.dropWhile is_space_char
    if r2.length = r1.length then none
    else
      let name := r2.takeWhile is_word_char
      if name.isEmpty then none
      else
        let r3 := r2.drop name.length
        let cont := fun (r : List Char) =>
          ((r.dropWhile is_space_char).head? == some ':')
        let withParen : Option Bool :=
          match r3.dropWhile is_space_char with
          | '(' :: rest =>
            match rest.dropWhile (fun c => c != ')') with
            | ')' :: tail => some (cont tail)
            | _ => none
          | _ => none
        match withParen with
        | some true => some (String.mk name)
        | _ => if cont r3 then some (String.mk name) else none
  else none

/-- The lazy tail `.*?\s*:` of `func_pattern`: whether some split point lets
`\s*:` match (`.` never crosses a newline). -/
def lazy_dot_then_colon : List Char → Bool
  | [] => false
  | c :: t =>
    (((c :: t).dropWhile is_space_char).head? == some ':') ||
      (c != '\n' && lazy_dot_then_colon t)

/-- The `func_pattern` regex
`^(\s*)def\s+(\w+)\s*\([^)]*\)\s*(?:->.*?)?\s*:` applied with `.match`
(parser.py line 122), returning the captured indentation and name. -/
def match_func (line : List Char) : Option (List Char × String) :=
  let indent := line.takeWhile is_space_char
  let r0 := line.drop indent.length
  if starts_with "def".data r0 then
    let r1 := r0.drop 3
    let r2 := r1.dropWhile is_space_char
    if r2.length = r1.length then none
    else
      let name := r2.takeWhile is_word_char
      if name.isEmpty then none
      else
        match (r2.drop name.length).dropWhile is_space_char with
        | '(' :: rest =>
          match rest.dropWhile (fun c => c != ')') with
          | ')' :: tail =>
            let r4 := tail.dropWhile is_space_char
            if starts_with "->".data r4 then
              if lazy_dot_then_colon (r4.drop 2) then some (indent, String.mk name)
              else none
            else if r4.head? == some ':' then some (indent, String.mk name)
            else none
          | _ => none
        | _ => none
  else none

/-- The anchored body of the signature search `def\s+\w+\s*(\([^)]*\))`
(parser.py line 203), returning the captured parenthesized group. -/
def sig_at (l : List Char) : Option String :=
  if starts_with "def".data l then
    let r1 := l.drop 3
    let r2 := r1.dropWhile is_space_char
    if r2.length = r1.length then none
    else
      let name := r2.takeWhile is_word_char
      if name.isEmpty then none
      else
        match (r2.drop name.length).dropWhile is_space_char with
        | '(' :: rest =>
          let inner := rest.takeWhile (fun c => c != ')')
          if (rest.drop inner.length).head? == some ')' then
            some (String.mk ('(' :: (inner ++ [')'])))
          else none
        | _ => none
  else none

/-- `re.search` of the signature pattern: leftmost match. -/
def sig_search : List Char → Option String
  | [] => none
  | c :: t =>
    match sig_at (c :: t) with
    | some s => some s
    | none => sig_search t

/-- The `import_pattern` regex `^(?:from\s+([\w.]+)\s+)?import\s+(.+)$`
applied with `.match` (parser.py line 123), returning the optional `from`
module and the text after `import`.  A stripped line never ends in
whitespace, so the greedy runs need no backtracking. -/
def match_import (s : List Char) : Option (Option String × String) :=
  let tryFrom : Option (Option String × String) :=
    if starts_with "from".data s then
      let r1 := s.drop 4
      let r2 := r1.dropWhile is_space_char
      if r2.length = r1.length then none
      else
        let m := r2.takeWhile (fun c => is_word_char c || c == '.')
        if m.isEmpty then none
        else
          let r3 := r2.drop m.length
          let r4 := r3.dropWhile is_space_char
          if r4.length = r3.length then none
          else if starts_with "import".data r4 then
            let r5 := r4.drop 6
            let r6 := r5.dropWhile is_space_char
            if r6.length = r5.length then none
            else if r6.isEmpty then none
            else some (some (String.mk m), String.mk r6)
          else none
    else none
  match tryFrom with
  | some v => some v
  | none =>
    if starts_with "import".data s then
      let r1 := s.drop 6
      let r2 := r1.dropWhile is_space_char
      if r2.length = r1.length then none
      else if r2.isEmpty then none
      else some (none, String.mk r2)
    else none

/-- `"\n".join` — the multi-line docstring reassembly. -/
def join_nl : List (List Char) → List Char
  | [] => []
  | [a] => a
  | a :: rest => a ++ '\n' :: join_nl rest

/-- The docstring continuation lines (parser.py lines 535-540): raw lines
until the first one holding the quote, cut before it. -/
def doc_lines_collect (quote : List Char) : List String → List (List Char)
  | [] => []
  | dl :: rest =>
    match find_sub quote dl.data with
    | some pre => [pre]
    | none => dl.data :: doc_lines_collect quote rest

/-- The bounded scan of `_extract_docstring` (parser.py lines 521-547): up
to three lines from `i`; a line opening with a triple quote resolves the
docstring, a blank line continues, anything else stops. -/
def extract_docstring_from (lines : List String) : Nat → Nat → Option String
  | _, 0 => none
  | i, gas + 1 =>
    match lines.drop i with
    | [] => none
    | raw :: _ =>
      let line := py_strip raw
      let ld := line.data
      if starts_with ['"', '"', '"'] ld || starts_with ['\'', '\'', '\''] ld then
        let quote := ld.take 3
        if quote.isSuffixOf ld && decide (6 < ld.length) then
          some (py_strip (String.mk ((ld.drop 3).take (ld.length - 6))))
        else
          some (py_strip (String.mk
            (join_nl ((ld.drop 3) :: doc_lines_collect quote (lines.drop (i + 1))))))
      else if ld.isEmpty then extract_docstring_from lines (i + 1) gas
      else none

/-- `CodeParser._extract_docstring` (parser.py lines 521-547). -/
def extract_docstring (lines : List String) (start_idx : Nat) : Option String :=
  if lines.length ≤ start_idx then none
  else extract_docstring_from lines start_idx 3

/-- The scan of `_find_block_end` (parser.py lines 508-518) from line `i`
with `gas = len(lines) - i` iterations left: the first non-blank,
non-comment line at indentation ≤ `def_indent` ends the block. -/
def find_block_scan (lines : List String) (def_indent : Nat) : Nat → Nat → Nat
  | _, 0 => lines.length
  | i, gas + 1 =>
    let line := lines.getD i ""
    let stripped := py_strip line
    if stripped.data.isEmpty then find_block_scan lines def_indent (i + 1) gas
    else if starts_with ['#'] stripped.data then find_block_scan lines def_indent (i + 1) gas
    else if line.length - (py_lstrip line).length ≤ def_indent then i
    else find_block_scan lines def_indent (i + 1) gas

/-- `CodeParser._find_block_end` (parser.py lines 498-519): the 0-based
index of the first following dedented line (or `len(lines)`), used
directly as `end_line`. -/
def find_block_end (lines : List String) (start_idx : Nat) : Nat :=
  if lines.length ≤ start_idx then start_idx + 1
  else
    let def_line := lines.getD start_idx ""
    let def_indent := def_line.length - (py_lstrip def_line).length
    find_block_scan lines def_indent (start_idx + 1) (lines.length - (start_idx + 1))

/-- The `import X` arm (parser.py lines 150-161): one record per comma
part, splitting an optional " as " alias.  A part with more than one
" as " separator makes the source's tuple unpacking raise and is out of
the modelled inputs. -/
def import_mods (imports_str : String) (line_num : Nat) : List ExtractedImport :=
  (py_split [','] imports_str.data).filterMap fun part =>
    let m := py_strip (String.mk part)
    if (find_sub " as ".data m.data).isSome then
      match py_split " as ".data m.data with
      | [a, b] =>
        some { module := py_strip (String.mk a), «alias» := some (py_strip (String.mk b)),
               line := line_num }
      | _ => none
    else some { module := m, line := line_num }

/-- The per-line loop of `_parse_python_regex` (parser.py lines 126-214)
over the enumerated lines, carrying `current_class` and the accumulated
result: blank/comment skip, then the import, class and function arms in
the source's order. -/
def ppr_loop (lines : List String) :
    List (Nat × String) → Option String → ParseResult → ParseResult
  | [], _, res => res
  | (i, line) :: rest, current_class, res =>
    let line_num := i + 1
    let stripped := py_strip line
    if stripped.data.isEmpty || starts_with ['#'] stripped.data then
      ppr_loop lines rest current_class res
    else
      match match_import stripped.data with
      | some (from_module?, imports_str) =>
        let res2 :=
          match from_module? with
          | some from_module =>
            let names := (py_split [','] imports_str.data).map
              (fun n => ((py_split " as ".data (py_strip (String.mk n)).data).headD []))
            { res with imports := res.imports ++
                [{ module := from_module, names := names.map String.mk, line := line_num,
                   is_relative := starts_with ['.'] from_module.data }] }
          | none =>
            { res with imports := res.imports ++ import_mods imports_str line_num }
        ppr_loop lines rest current_class res2
      | none =>
        match match_class stripped.data with
        | some class_name =>
          ppr_loop lines rest (some class_name)
            { res with symbols := res.symbols ++
                [{ name := class_name, kind := SymbolKind.CLASS, start_line := line_num,
                   end_line := find_block_end lines i,
                   signature := some ("class " ++ class_name),
                   docstring := extract_docstring lines (i + 1) }] }
        | none =>
          match match_func line.data with
          | some (indent, func_name) =>
            let is_method := decide (0 < indent.length) && current_class.isSome
            ppr_loop lines rest current_class
              { res with symbols := res.symbols ++
                  [{ name := func_name,
                     kind := if is_method then SymbolKind.METHOD else SymbolKind.FUNCTION,
                     start_line := line_num,
                     end_line := find_block_end lines i,
                     signature := some
                       (match sig_search line.data with
                        | some group => "def " ++ func_name ++ group
                        | none => "def " ++ func_name ++ "()"),
                     docstring := extract_docstring lines (i + 1),
                     parent_name := if is_method then current_class else none }] }
          | none => ppr_loop lines rest current_class res

/-- `CodeParser._parse_python_regex` (parser.py lines 115-216). -/
def parse_python_regex (content : String) : ParseResult :=
  let lines := (py_split ['\n'] content.data).map String.mk
  ppr_loop lines lines.enum none {}

/-- A symbol row as the orchestrator persists it (the columns the claim
reads), with insertion-order ids. -/
structure PersistedSymbol where
  id : Nat
  name : String
  kind : SymbolKind
  signature : Option String
  docstring : Option String
  parent_id : Option Nat
deriving DecidableEq, Repr

/-- The per-file symbol persistence loop of `IndexingEngine.index_project`
(engine.py lines 123-146): ids are assigned in insertion order (modelled
as successive naturals), `symbol_map[name] = id` is written before the
parent link is resolved (the dict keeps the latest id per name, modelled
by front insertion with first-match lookup), and `parent_id` is set when
`parent_name` is truthy and present in the map. -/
def persist_symbols : Nat → List (String × Nat) → List ExtractedSymbol →
    List PersistedSymbol
  | _, _, [] => []
  | next_id, symbol_map, s :: rest =>
    let map2 := (s.name, next_id) :: symbol_map
    let parent_id :=
      match s.parent_name with
      | some pn =>
        if pn = "" then none
        else (map2.find? (fun e => e.1 == pn)).map (·.2)
      | none => none
    ⟨next_id, s.name, s.kind, s.signature, s.docstring, parent_id⟩ ::
      persist_symbols (next_id + 1) map2 rest

/-! ### Claim theorem: Python parsing scenario -/

/-- C9: parsing the two-symbol Python class/method source with the regex
fallback yields, in order, `C` of kind class with signature "class C",
docstring "class doc" and null parent_name, then `m` of kind method with
signature "def m(self, x)", docstring "method doc" and parent_name "C";
after the orchestrator's persistence pass, `m`'s `parent_id` is `C`'s id. -/
theorem parse_class_method_scenario :
    ((parse_python_regex
        "class C:\n    \"\"\"class doc\"\"\"\n    def m(self, x):\n        \"\"\"method doc\"\"\"\n        return x").symbols.map
      (fun s => (s.name, s.kind, s.signature, s.docstring, s.parent_name))
      = [("C", SymbolKind.CLASS, some "class C", some "class doc", none),
         ("m", SymbolKind.METHOD, some "def m(self, x)", some "method doc", some "C")])
    ∧ ((persist_symbols 0 []
        (parse_python_regex
          "class C:\n    \"\"\"class doc\"\"\"\n    def m(self, x):\n        \"\"\"method doc\"\"\"\n        return x").symbols).map
      (fun p => (p.id, p.name, p.parent_id))
      = [(0, "C", none), (1, "m", some 0)]) := by
  exact ⟨by decide, by decide⟩

end CodeAtlas
